import Mathlib

/-!
Shallow embedding of the `sse-channel` repository (two implementations:
`src/lib/sse-channel.js`, called "lib" below, and `src/unnamed/part_000`,
called "part_000" below).  JavaScript strings are modelled as Lean `String`
(lists of characters), JavaScript numbers relevant to the claims (event ids,
retry timeouts) as `Nat`/`Int`, and message payload values as the inductive
`JsData`.  Truthiness of the modelled values follows JavaScript: the empty
string, the number 0, `false` and `null` are falsy.
-/

/-- Model of the JavaScript values that can appear in a message `data` field. -/
inductive JsData where
  | str (s : String)
  | num (n : Int)
  | bool (b : Bool)
  | null
deriving DecidableEq, Repr

/-- JavaScript truthiness for `JsData` values: `''`, `0`, `false` and `null`
are falsy. -/
def JsData.truthy : JsData → Bool
  | .str s => s ≠ ""
  | .num n => n ≠ 0
  | .bool b => b
  | .null => false

/-- Model of `_.isString` from lodash. -/
def JsData.isString : JsData → Bool
  | .str _ => true
  | _ => false

/-- Model of the JavaScript expression `x || ''` (used as `msg.data || ''`). -/
def jsOrEmpty (d : JsData) : JsData :=
  if d.truthy then d else .str ""

/-- Model of the JavaScript `String(x)` coercion on `JsData` values. -/
def jsToString : JsData → String
  | .str s => s
  | .num n => toString n
  | .bool b => if b then "true" else "false"
  | .null => "null"

/-- Lower-case hexadecimal digit for `n < 16`, used by the JSON string
escaping model. -/
def hexDigit (n : Nat) : Char :=
  if n < 10 then Char.ofNat (48 + n) else Char.ofNat (87 + n)

/-- JSON escaping of a single character, as performed by `JSON.stringify`
on the characters of a string. -/
def escapeJsonChar (c : Char) : List Char :=
  if c = '"' then ['\\', '"']
  else if c = '\\' then ['\\', '\\']
  else if c = '\n' then ['\\', 'n']
  else if c = '\r' then ['\\', 'r']
  else if c = '\t' then ['\\', 't']
  else if c.toNat = 8 then ['\\', 'b']
  else if c.toNat = 12 then ['\\', 'f']
  else if c.toNat < 32 then
    ['\\', 'u', '0', '0', hexDigit (c.toNat / 16), hexDigit (c.toNat % 16)]
  else [c]

/-- Model of `JSON.stringify` on the payload values of `JsData`. -/
def jsonStringify : JsData → String
  | .str s => String.mk ('"' :: (s.data.map escapeJsonChar).flatten ++ ['"'])
  | .num n => toString n
  | .bool b => if b then "true" else "false"
  | .null => "null"

/-- Embedding of the line-ending normalisation in `parseTextData`
(both files): `String(text).replace(/(\r\n|\r|\n)/g, '\n')`.  The regex
alternation matches `\r\n` before a lone `\r`; a lone `\n` is replaced by
itself. -/
def normalizeNewlines : List Char → List Char
  | [] => []
  | c :: rest =>
    if c = '\r' then
      match rest with
      | c2 :: rest2 =>
        if c2 = '\n' then '\n' :: normalizeNewlines rest2
        else '\n' :: normalizeNewlines (c2 :: rest2)
      | [] => ['\n']
    else c :: normalizeNewlines rest

/-- Embedding of `data.split(/\n/)`: like JavaScript `split`, the result is
never empty (splitting the empty string yields `[[]]`). -/
def splitOnNl : List Char → List (List Char)
  | [] => [[]]
  | c :: rest =>
    if c = '\n' then [] :: splitOnNl rest
    else
      match splitOnNl rest with
      | [] => [[c]]
      | l :: ls => (c :: l) :: ls

/-- Embedding of the output loop of `parseTextData` (both files): one
`data: <line>\n` per line, with the final line terminated by `\n\n`
instead. -/
def emitLines : List (List Char) → List Char
  | [] => []
  | [line] => "data: ".data ++ line ++ "\n\n".data
  | line :: l2 :: rest => "data: ".data ++ line ++ "\n".data ++ emitLines (l2 :: rest)

/-- Embedding of `parseTextData` (identical in both files except that
part_000 first applies `String(text)`, which is the identity on the string
inputs modelled here; the `String(...)` coercion at part_000 call sites
with possibly non-string arguments is made explicit via `jsToString`). -/
def parseTextData (text : String) : String :=
  String.mk (emitLines (splitOnNl (normalizeNewlines text.data)))

/-- Structured message object passed to `send` / `parseMessage`.  Event ids
and retry timeouts are canonically numbers in this library (`Nat` here); value
`0` and the empty event name model the JavaScript falsy cases of the
`if (msg.id)`, `if (msg.retry)` and `if (msg.event)` guards. -/
structure MsgObj where
  event : String
  retry : Nat
  id : Nat
  data : JsData
deriving DecidableEq, Repr

/-- Argument of `send` / `parseMessage`: either a plain string or a message
object (`typeof msg === 'string'` dispatch). -/
inductive JsMsg where
  | str (s : String)
  | obj (m : MsgObj)
deriving DecidableEq, Repr

/-- Value of `msg.id`: reading `.id` on a plain string yields `undefined`,
modelled as the falsy `0`. -/
def msgId : JsMsg → Nat
  | .str _ => 0
  | .obj m => m.id

/-- Header fields emitted by `parseMessage`, identical in both files:
`event: <event>\n` if `msg.event` is truthy, then `retry: <retry>\n` if
`msg.retry` is truthy, then `id: <id>\n` if `msg.id` is truthy. -/
def msgHeader (event : String) (retry : Nat) (id : Nat) : String :=
  (if event ≠ "" then "event: " ++ event ++ "\n" else "") ++
  (if retry ≠ 0 then "retry: " ++ toString retry ++ "\n" else "") ++
  (if id ≠ 0 then "id: " ++ toString id ++ "\n" else "")

/-- Embedding of `parseMessage` from `src/unnamed/part_000`: after the
header fields, `var data = msg.data || ''` and, when `jsonEncode` is set,
`data = JSON.stringify(data)` unconditionally (no string check); then
`parseTextData(data)` which applies `String(data)` (`jsToString`). -/
def parseMessage (msg : JsMsg) (jsonEncode : Bool) : String :=
  match msg with
  | .str s => parseTextData (jsToString (.str s))
  | .obj m =>
    let output := msgHeader m.event m.retry m.id
    let data := jsOrEmpty m.data
    let data := if jsonEncode then JsData.str (jsonStringify data) else data
    output ++ parseTextData (jsToString data)

/-- Embedding of `parseMessage` from `src/lib/sse-channel.js`: identical
header fields, but the data block is serialised only when `autoSerialize`
is set AND `msg.data` is not already a string
(`if (autoSerialize && !_.isString(msg.data)) data = JSON.stringify(msg.data)`).
In the remaining branch the data reaching `parseTextData` is
`msg.data || ''`; if that value is not a string the source would throw a
`TypeError` (`text.replace` on a non-string), modelled as `none`. -/
def parseMessageLib (msg : JsMsg) (autoSerialize : Bool) : Option String :=
  match msg with
  | .str s => some (parseTextData s)
  | .obj m =>
    let output := msgHeader m.event m.retry m.id
    if autoSerialize && !m.data.isString then
      some (output ++ parseTextData (jsonStringify m.data))
    else
      match jsOrEmpty m.data with
      | .str s => some (output ++ parseTextData s)
      | _ => none

/-- History entry as stored by `send`: `{ id: msg.id, msg: message }` where
`message` is the already-formatted frame. -/
structure HistoryEntry where
  id : Nat
  msg : String
deriving DecidableEq, Repr

/-- Embedding of the history-mutation part of part_000's `send` (executed
only when no explicit client subset is given): when `msg.id` is truthy,
duplicates are removed (`this.history = _.reject(this.history, { id: msg.id })`),
then the entry is unshifted onto the front and, when the unshift makes the
length exceed `historySize`, the last (oldest) element is popped. -/
def sendHistoryUpdate (historySize : Nat) (history : List HistoryEntry)
    (id : Nat) (message : String) : List HistoryEntry :=
  let history1 := if id ≠ 0 then history.filter (fun e => e.id ≠ id) else history
  if id ≠ 0 then
    let unshifted := HistoryEntry.mk id message :: history1
    if unshifted.length > historySize then unshifted.dropLast else unshifted
  else history1

/-- Embedding of the loop of `sendMissedEvents` (identical in both files):
scan the history front-to-back (most recent first), break at the first entry
with `id <= lastId`, and `unshift` each collected frame so the result is
oldest-first.  The accumulator models the `entries` array. -/
def sendMissedEventsGo (lastId : Nat) : List HistoryEntry → List String → List String
  | [], entries => entries
  | e :: rest, entries =>
    if e.id ≤ lastId then entries else sendMissedEventsGo lastId rest (e.msg :: entries)

/-- Embedding of `SseChannel.prototype.sendMissedEvents` (identical in both
files), returning the ordered list of frames written to the response. -/
def sendMissedEvents (history : List HistoryEntry) (lastId : Nat) : List String :=
  sendMissedEventsGo lastId history []

/-- Embedding of the module-level `broadcast` helper (identical in both
files), returning the temporally ordered list of `write` calls:
`var i = connections.length; while (i--) connections[i].write(packet)` writes
to the last-added connection first. -/
def broadcast : List Nat → String → List (Nat × String)
  | [], _ => []
  | c :: rest, packet => broadcast rest packet ++ [(c, packet)]

/-- Channel state; connections are modelled by numeric handles in registry
order (`push` appends at the back).  `connectionCount` is an `Int` because
`removeClient` decrements it unconditionally, so it can become negative. -/
structure Channel where
  historySize : Nat
  retryTimeout : Nat
  jsonEncode : Bool
  history : List HistoryEntry
  connections : List Nat
  connectionCount : Int
deriving DecidableEq, Repr

/-- Embedding of `SseChannel.prototype.removeClient` (identical in both
files): `_.pull(this.connections, res)` removes every occurrence of `res`
if present (no-op otherwise), but `this.connectionCount--` decrements
unconditionally. -/
def removeClient (ch : Channel) (res : Nat) : Channel :=
  { ch with
    connections := ch.connections.filter (fun c => c ≠ res),
    connectionCount := ch.connectionCount - 1 }

/-- Result of `send`: the mutated channel and the ordered `write` calls
performed by the `broadcast` helper. -/
structure SendResult where
  channel : Channel
  writes : List (Nat × String)
deriving DecidableEq, Repr

/-- Embedding of part_000's `SseChannel.prototype.send`: format once via
`parseMessage`; if no explicit client subset is given (`!clients`), mutate
the history via `sendHistoryUpdate`; broadcast the frame to
`clients || this.connections`. -/
def send (ch : Channel) (msg : JsMsg) (clients : Option (List Nat)) : SendResult :=
  let message := parseMessage msg ch.jsonEncode
  let ch2 :=
    match clients with
    | none =>
      { ch with history := sendHistoryUpdate ch.historySize ch.history (msgId msg) message }
    | some _ => ch
  { channel := ch2, writes := broadcast (clients.getD ch.connections) message }

/-- Preamble data written for legacy clients:
`new Array(2057).join('-') + '\n'` is 2056 dashes followed by a newline. -/
def preambleData : String :=
  String.mk (List.replicate 2056 '-') ++ "\n"

/-- Writes performed by part_000's `initializeConnection` on the response
(headers and socket options are transport concerns, not modelled):
`:ok\n\n`, then `retry: <retry>\n` when the retry timeout is truthy, then
the comment-padding block when the preamble was requested. -/
def initializeConnection (retry : Nat) (preamble : Bool) : List String :=
  [":ok\n\n"] ++
  (if retry ≠ 0 then ["retry: " ++ toString retry ++ "\n"] else []) ++
  (if preamble then [":" ++ preambleData] else [])

/-- Request data consulted by `addClient`: the three resume-id sources in
precedence order (`last-event-id` header, `evs_last_event_id`,
`lastEventId` query aliases; value `0` models an absent/falsy source) and
the `evs_preamble` query flag. -/
structure Request where
  lastEventIdHeader : Nat
  evsLastEventId : Nat
  lastEventIdQuery : Nat
  evsPreamble : Bool
deriving DecidableEq, Repr

/-- Outcome reported to the `addClient` callback: early CORS return with
the callback argument (`some "cors failure"` when the response status is
403, `none` otherwise), or normal completion. -/
inductive AddClientOutcome where
  | corsHandled (err : Option String)
  | connected
deriving DecidableEq, Repr

/-- Observable effects of one `addClient` call. -/
structure AddClientResult where
  outcome : AddClientOutcome
  channel : Channel
  resWrites : List String
  connectEmitted : Bool
deriving DecidableEq, Repr

/-- Embedding of part_000's `SseChannel.prototype.addClient`.  The external
`access-control` collaborator is abstracted by its observable result:
`corsHandled` (the value of `this.cors(req, res)`) and `statusCode` (the
response status it set).  When `corsHandled` is true the function returns
early: the callback receives `'cors failure'` iff the status is 403, and
nothing else happens.  Otherwise the handshake is written, the connection
is pushed and counted, the resume id is extracted with
`header || evs_last_event_id || lastEventId || 0`, missed events are
replayed when it is truthy, and the `connect` event is emitted. -/
def addClient (ch : Channel) (corsHandled : Bool) (statusCode : Nat)
    (req : Request) (res : Nat) : AddClientResult :=
  if corsHandled then
    { outcome := .corsHandled (if statusCode = 403 then some "cors failure" else none),
      channel := ch, resWrites := [], connectEmitted := false }
  else
    let initWrites := initializeConnection ch.retryTimeout req.evsPreamble
    let ch2 := { ch with
      connections := ch.connections ++ [res],
      connectionCount := ch.connectionCount + 1 }
    let lastEventId :=
      if req.lastEventIdHeader ≠ 0 then req.lastEventIdHeader
      else if req.evsLastEventId ≠ 0 then req.evsLastEventId
      else req.lastEventIdQuery
    let replay := if lastEventId ≠ 0 then sendMissedEvents ch2.history lastEventId else []
    { outcome := .connected, channel := ch2,
      resWrites := initWrites ++ replay, connectEmitted := true }

/-! ## Supporting lemmas -/

/-- Line-ending normalisation leaves no carriage return behind. -/
theorem not_cr_mem_normalizeNewlines (cs : List Char) : '\r' ∉ normalizeNewlines cs := by
  induction cs using normalizeNewlines.induct with
  | case1 => simp [normalizeNewlines]
  | case2 rest2 ih => simp [normalizeNewlines]; simpa using ih
  | case3 c2 rest2 hne ih => simp [normalizeNewlines, hne]; simpa using ih
  | case4 => simp [normalizeNewlines]
  | case5 c rest hne ih =>
    rw [normalizeNewlines.eq_def]
    simp only [if_neg hne, List.mem_cons, not_or]
    exact ⟨fun h => hne h.symm, ih⟩

/-- Splitting on newlines never yields the empty list (JavaScript
`split` always returns at least one chunk). -/
theorem splitOnNl_ne_nil (cs : List Char) : splitOnNl cs ≠ [] := by
  cases cs with
  | nil => simp [splitOnNl]
  | cons c rest =>
    unfold splitOnNl
    split
    · simp
    · split <;> simp

/-- The output loop of `parseTextData` emits one `data: <line>\n` chunk per
line followed by one extra `\n` (the blank line terminating the event). -/
theorem emitLines_flatten (ls : List (List Char)) (h : ls ≠ []) :
    emitLines ls
      = ((ls.map fun l => "data: ".data ++ l ++ "\n".data).flatten) ++ "\n".data := by
  induction ls with
  | nil => cases h rfl
  | cons l rest ih =>
    cases rest with
    | nil => simp [emitLines]
    | cons l2 rest2 =>
      rw [emitLines, ih (by simp)]
      simp

/-- The `broadcast` loop writes to the registered connections in reverse
registry order. -/
theorem broadcast_eq_reverse (conns : List Nat) (packet : String) :
    broadcast conns packet = (conns.map fun c => (c, packet)).reverse := by
  induction conns with
  | nil => rfl
  | cons a rest ih => simp [broadcast, ih]

/-- Membership in the write list produced by `broadcast`. -/
theorem mem_broadcast {c : Nat} {q packet : String} {conns : List Nat} :
    (c, q) ∈ broadcast conns packet ↔ c ∈ conns ∧ q = packet := by
  induction conns with
  | nil => simp [broadcast]
  | cons a rest ih =>
    simp only [broadcast, List.mem_append, ih, List.mem_singleton, Prod.mk.injEq,
      List.mem_cons]
    tauto

/-- The `sendMissedEvents` loop prepends, onto the accumulator, the reversed
frames of the longest prefix of strictly newer entries. -/
theorem sendMissedEventsGo_eq (lastId : Nat) (hist : List HistoryEntry) (acc : List String) :
    sendMissedEventsGo lastId hist acc
      = ((hist.takeWhile fun e => lastId < e.id).map HistoryEntry.msg).reverse ++ acc := by
  induction hist generalizing acc with
  | nil => simp [sendMissedEventsGo]
  | cons e rest ih =>
    by_cases h : e.id ≤ lastId
    · simp [sendMissedEventsGo, h, List.takeWhile_cons, Nat.not_lt.mpr h]
    · rw [sendMissedEventsGo, if_neg h, ih, List.takeWhile_cons]
      rw [if_pos (by simpa using Nat.lt_of_not_le h)]
      simp

/-- On a history sorted most-recent-first (non-increasing ids front to
back), stopping at the first entry with `id ≤ lastId` collects exactly the
entries with `id > lastId`. -/
theorem takeWhile_eq_filter_of_sorted (lastId : Nat) (hist : List HistoryEntry)
    (hp : List.Pairwise (fun a b => b.id ≤ a.id) hist) :
    hist.takeWhile (fun e => lastId < e.id) = hist.filter (fun e => lastId < e.id) := by
  induction hist with
  | nil => rfl
  | cons e rest ih =>
    rw [List.pairwise_cons] at hp
    by_cases h : lastId < e.id
    · simp [List.takeWhile_cons, List.filter_cons, h, ih hp.2]
    · rw [List.takeWhile_cons, List.filter_cons,
        if_neg (by simpa using h), if_neg (by simpa using h)]
      symm
      rw [List.filter_eq_nil_iff]
      intro b hb
      have hble := hp.1 b hb
      simp only [decide_eq_true_eq]
      omega

/-- Reduction of `send` with no explicit client subset to the history
mutation it performs. -/
theorem send_none_history (ch : Channel) (msg : JsMsg) :
    (send ch msg none).channel.history
      = sendHistoryUpdate ch.historySize ch.history (msgId msg)
          (parseMessage msg ch.jsonEncode) := rfl

/-- Core invariant-preservation lemma for the history mutation of `send`:
given a truthy id, a positive capacity, unique ids and a length within
capacity, the update keeps ids unique, keeps the length within capacity,
puts the new entry at the front, and evicts exactly the last (oldest)
element when the insertion would overflow. -/
theorem sendHistoryUpdate_spec (size : Nat) (hist : List HistoryEntry)
    (id : Nat) (frame : String)
    (hid : id ≠ 0) (hpos : 0 < size)
    (huniq : List.Pairwise (fun a b => a.id ≠ b.id) hist)
    (hlen : hist.length ≤ size) :
    List.Pairwise (fun a b => a.id ≠ b.id) (sendHistoryUpdate size hist id frame) ∧
    (sendHistoryUpdate size hist id frame).length ≤ size ∧
    (sendHistoryUpdate size hist id frame).head? = some (HistoryEntry.mk id frame) ∧
    ((HistoryEntry.mk id frame :: hist.filter (fun e => e.id ≠ id)).length ≤ size →
      sendHistoryUpdate size hist id frame
        = HistoryEntry.mk id frame :: hist.filter (fun e => e.id ≠ id)) ∧
    (size < (HistoryEntry.mk id frame :: hist.filter (fun e => e.id ≠ id)).length →
      sendHistoryUpdate size hist id frame
        = (HistoryEntry.mk id frame :: hist.filter (fun e => e.id ≠ id)).dropLast) := by
  have hred : sendHistoryUpdate size hist id frame
      = if size < (HistoryEntry.mk id frame :: hist.filter (fun e => e.id ≠ id)).length
        then (HistoryEntry.mk id frame :: hist.filter (fun e => e.id ≠ id)).dropLast
        else HistoryEntry.mk id frame :: hist.filter (fun e => e.id ≠ id) := by
    simp [sendHistoryUpdate, hid]
  have hflen : (hist.filter (fun e => e.id ≠ id)).length ≤ hist.length :=
    List.length_filter_le _ _
  have hfu : List.Pairwise (fun a b => a.id ≠ b.id) (hist.filter (fun e => e.id ≠ id)) :=
    huniq.sublist (List.filter_sublist _)
  have hnew : ∀ b ∈ hist.filter (fun e => e.id ≠ id), id ≠ b.id := by
    intro b hb
    have hb2 := (List.mem_filter.mp hb).2
    simp only [decide_eq_true_eq] at hb2
    exact fun hcon => hb2 hcon.symm
  have hins : List.Pairwise (fun a b => a.id ≠ b.id)
      (HistoryEntry.mk id frame :: hist.filter (fun e => e.id ≠ id)) :=
    List.pairwise_cons.mpr ⟨hnew, hfu⟩
  by_cases hgt : size < (HistoryEntry.mk id frame :: hist.filter (fun e => e.id ≠ id)).length
  · rw [hred, if_pos hgt]
    refine ⟨hins.sublist (List.dropLast_sublist _), ?_, ?_, ?_, fun _ => rfl⟩
    · rw [List.length_dropLast]
      simp only [List.length_cons]
      omega
    · rcases hfe : hist.filter (fun e => e.id ≠ id) with _ | ⟨y, l⟩
      · rw [hfe] at hgt
        simp only [List.length_cons, List.length_nil] at hgt
        omega
      · rw [hfe, List.dropLast_cons₂]
        rfl
    · intro hc
      omega
  · rw [hred, if_neg hgt]
    exact ⟨hins, by simp only [List.length_cons] at hgt ⊢; omega, rfl,
      fun _ => rfl, fun hc => absurd hc hgt⟩

/-! ## Claim theorems -/

/-- C1: evaluation of `removeClient` at the failing input.  The claim says
removal of an absent connection is a no-op and the live count changes only
on an actual removal; the code (`_.pull(this.connections, res);
this.connectionCount--`) leaves the registry untouched for an absent
connection but decrements the count unconditionally, so removing the same
connection twice drives the count from 1 to -1, and removing an absent
connection changes the count while leaving the registry unchanged. -/
theorem removeClient_unconditional_decrement :
    (removeClient (Channel.mk 500 0 false [] [1] 1) 1).connections = [] ∧
    (removeClient (Channel.mk 500 0 false [] [1] 1) 1).connectionCount = 0 ∧
    (removeClient (removeClient (Channel.mk 500 0 false [] [1] 1) 1) 1).connections = [] ∧
    (removeClient (removeClient (Channel.mk 500 0 false [] [1] 1) 1) 1).connectionCount
      = -1 ∧
    (removeClient (Channel.mk 500 0 false [] [1] 1) 2).connections = [1] ∧
    (removeClient (Channel.mk 500 0 false [] [1] 1) 2).connectionCount = 0 := by
  decide

/-- C2: publishing an identified message (truthy id, no explicit client
subset) preserves the history-buffer invariant: ids stay unique, the length
stays within `historySize`, the new entry sits at the most-recent (front)
position, and when the insertion would exceed the capacity exactly the
single oldest (last) entry is evicted. -/
theorem send_history_invariant (ch : Channel) (msg : JsMsg)
    (hid : msgId msg ≠ 0) (hpos : 0 < ch.historySize)
    (huniq : List.Pairwise (fun a b => a.id ≠ b.id) ch.history)
    (hlen : ch.history.length ≤ ch.historySize) :
    List.Pairwise (fun a b => a.id ≠ b.id) (send ch msg none).channel.history ∧
    (send ch msg none).channel.history.length ≤ ch.historySize ∧
    (send ch msg none).channel.history.head?
      = some (HistoryEntry.mk (msgId msg) (parseMessage msg ch.jsonEncode)) ∧
    ((HistoryEntry.mk (msgId msg) (parseMessage msg ch.jsonEncode)
        :: ch.history.filter (fun e => e.id ≠ msgId msg)).length ≤ ch.historySize →
      (send ch msg none).channel.history
        = HistoryEntry.mk (msgId msg) (parseMessage msg ch.jsonEncode)
            :: ch.history.filter (fun e => e.id ≠ msgId msg)) ∧
    (ch.historySize
        < (HistoryEntry.mk (msgId msg) (parseMessage msg ch.jsonEncode)
            :: ch.history.filter (fun e => e.id ≠ msgId msg)).length →
      (send ch msg none).channel.history
        = (HistoryEntry.mk (msgId msg) (parseMessage msg ch.jsonEncode)
            :: ch.history.filter (fun e => e.id ≠ msgId msg)).dropLast) := by
  simp only [send_none_history]
  exact sendHistoryUpdate_spec ch.historySize ch.history (msgId msg)
    (parseMessage msg ch.jsonEncode) hid hpos huniq hlen

/-- C2 witness: concrete eviction at capacity 1. -/
theorem send_history_invariant_witness :
    List.Pairwise (fun a b => a.id ≠ b.id)
      (send (Channel.mk 1 0 false [HistoryEntry.mk 1 "A"] [] 0)
        (JsMsg.obj (MsgObj.mk "" 0 2 (JsData.str "b"))) none).channel.history ∧
    (send (Channel.mk 1 0 false [HistoryEntry.mk 1 "A"] [] 0)
        (JsMsg.obj (MsgObj.mk "" 0 2 (JsData.str "b"))) none).channel.history.length
      ≤ 1 := by
  have h := send_history_invariant (Channel.mk 1 0 false [HistoryEntry.mk 1 "A"] [] 0)
    (JsMsg.obj (MsgObj.mk "" 0 2 (JsData.str "b")))
    (by decide) (by decide) (by decide) (by decide)
  exact ⟨h.1, h.2.1⟩

/-- C3: on a history stored most-recent-first with non-decreasing publish
ids (non-increasing front to back), replay returns, oldest-first, exactly
the frames of the entries with id strictly greater than `lastId`; in
particular after ids 1..5, resuming from 3 yields the frames of 4 then 5. -/
theorem sendMissedEvents_resume (history : List HistoryEntry) (lastId : Nat)
    (hsorted : List.Pairwise (fun a b => b.id ≤ a.id) history) :
    sendMissedEvents history lastId
      = ((history.filter fun e => lastId < e.id).map HistoryEntry.msg).reverse ∧
    ∀ f1 f2 f3 f4 f5 : String,
      sendMissedEvents [HistoryEntry.mk 5 f5, HistoryEntry.mk 4 f4, HistoryEntry.mk 3 f3,
        HistoryEntry.mk 2 f2, HistoryEntry.mk 1 f1] 3 = [f4, f5] := by
  constructor
  · rw [sendMissedEvents, sendMissedEventsGo_eq,
      takeWhile_eq_filter_of_sorted lastId history hsorted, List.append_nil]
  · intro f1 f2 f3 f4 f5
    rfl

/-- C3 witness: replay after publishing ids 1..5 and resuming from 3. -/
theorem sendMissedEvents_resume_witness :
    sendMissedEvents [HistoryEntry.mk 5 "e5", HistoryEntry.mk 4 "e4", HistoryEntry.mk 3 "e3",
      HistoryEntry.mk 2 "e2", HistoryEntry.mk 1 "e1"] 3 = ["e4", "e5"] := by
  have h := sendMissedEvents_resume [HistoryEntry.mk 5 "e5", HistoryEntry.mk 4 "e4",
    HistoryEntry.mk 3 "e3", HistoryEntry.mk 2 "e2", HistoryEntry.mk 1 "e1"] 3 (by decide)
  exact h.2 "e1" "e2" "e3" "e4" "e5"

/-- C4: the frame formatter normalises every CRLF and lone CR to LF and, for
a payload with N (normalised) lines, emits exactly N chunks
`data: <line>\n` followed by one extra `\n` (the single blank line); the
payload `"a\nb\r\nc"` yields exactly the three data lines `a`, `b`, `c`
and one blank line, and the empty payload yields `data: \n\n`. -/
theorem parseTextData_frame (text : String) :
    parseTextData text
      = String.mk
          (((splitOnNl (normalizeNewlines text.data)).map
              (fun l => "data: ".data ++ l ++ "\n".data)).flatten ++ "\n".data) ∧
    (∀ cs : List Char, '\r' ∉ normalizeNewlines cs) ∧
    parseTextData "a\nb\r\nc" = "data: a\ndata: b\ndata: c\n\n" ∧
    parseTextData "" = "data: \n\n" := by
  refine ⟨?_, not_cr_mem_normalizeNewlines, by decide, by decide⟩
  unfold parseTextData
  rw [emitLines_flatten _ (splitOnNl_ne_nil _)]

/-- C5 counterexample: with `jsonEncode` enabled, part_000's `parseMessage`
JSON-serialises a payload that is already a string instead of using it
as-is (the lib implementation does use it as-is). -/
theorem parseMessage_jsonEncode_string_counterexample :
    parseMessage (JsMsg.obj (MsgObj.mk "" 0 0 (JsData.str "hi"))) true ≠ "data: hi\n\n" ∧
    parseMessage (JsMsg.obj (MsgObj.mk "" 0 0 (JsData.str "hi"))) true
      = "data: \"hi\"\n\n" ∧
    parseMessageLib (JsMsg.obj (MsgObj.mk "" 0 0 (JsData.str "hi"))) true
      = some "data: hi\n\n" := by
  decide

/-- C5 (amended): with the serialisation option enabled, the lib
implementation (`autoSerialize`) uses a payload that is already a string
as-is, while the part_000 implementation (`jsonEncode`) JSON-serialises the
(defaulted) payload unconditionally, including string payloads. -/
theorem parseMessage_serialization_split (e : String) (r i : Nat) (s : String)
    (d : JsData) :
    parseMessageLib (JsMsg.obj (MsgObj.mk e r i (JsData.str s))) true
      = some (msgHeader e r i ++ parseTextData s) ∧
    parseMessage (JsMsg.obj (MsgObj.mk e r i d)) true
      = msgHeader e r i ++ parseTextData (jsonStringify (jsOrEmpty d)) := by
  constructor
  · by_cases hs : s = "" <;>
      simp [parseMessageLib, jsOrEmpty, JsData.truthy, JsData.isString, hs]
  · rfl

/-- C6: a message whose id is falsy (absent on a plain string, or 0) is
never stored: the history is unchanged, so every later replay is unchanged,
while the formatted frame is still broadcast to every connection live at
call time; `send` is a total function, so publish always completes. -/
theorem send_falsy_id_not_stored (ch : Channel) (msg : JsMsg) (h : msgId msg = 0) :
    (send ch msg none).channel.history = ch.history ∧
    (∀ lastId, sendMissedEvents (send ch msg none).channel.history lastId
        = sendMissedEvents ch.history lastId) ∧
    (send ch msg none).writes = broadcast ch.connections (parseMessage msg ch.jsonEncode) ∧
    ∀ c ∈ ch.connections,
      (c, parseMessage msg ch.jsonEncode) ∈ (send ch msg none).writes := by
  have hh : (send ch msg none).channel.history = ch.history := by
    rw [send_none_history]
    simp [sendHistoryUpdate, h]
  refine ⟨hh, fun lastId => by rw [hh], rfl, ?_⟩
  intro c hc
  show (c, parseMessage msg ch.jsonEncode)
    ∈ broadcast ch.connections (parseMessage msg ch.jsonEncode)
  exact mem_broadcast.mpr ⟨hc, rfl⟩

/-- C6 witness: a plain-string message (falsy id) on a one-connection
channel is broadcast but not stored. -/
theorem send_falsy_id_not_stored_witness :
    (send (Channel.mk 500 0 false [] [7] 1) (JsMsg.str "hello") none).channel.history
      = [] ∧
    (7, parseTextData "hello")
      ∈ (send (Channel.mk 500 0 false [] [7] 1) (JsMsg.str "hello") none).writes := by
  have h := send_falsy_id_not_stored (Channel.mk 500 0 false [] [7] 1)
    (JsMsg.str "hello") rfl
  exact ⟨h.1, h.2.2.2 7 (by decide)⟩

/-- C7 counterexample: `broadcast` does not write in registry order — with
registry `[1, 2]` (1 added first), connection 2 is written first. -/
theorem broadcast_order_counterexample :
    broadcast [1, 2] "x" = [(2, "x"), (1, "x")] ∧
    broadcast [1, 2] "x" ≠ [(1, "x"), (2, "x")] := by
  decide

/-- C7 (amended): `broadcast` writes the frame exactly once to every
currently-registered connection, in reverse registry order (most recently
added first). -/
theorem broadcast_reverse_order (conns : List Nat) (packet : String) :
    broadcast conns packet = (conns.map fun c => (c, packet)).reverse ∧
    ∀ c ∈ conns, (c, packet) ∈ broadcast conns packet :=
  ⟨broadcast_eq_reverse conns packet, fun _ hc => mem_broadcast.mpr ⟨hc, rfl⟩⟩

/-- C8: publishing with an explicit target subset leaves the entire channel
state (history included) unchanged, writes the frame only to connections of
that subset, and the frame is the same `parseMessage` output a broadcast
publish would write. -/
theorem send_unicast_bypass (ch : Channel) (msg : JsMsg) (clients : List Nat) :
    (send ch msg (some clients)).channel = ch ∧
    (send ch msg (some clients)).writes
      = broadcast clients (parseMessage msg ch.jsonEncode) ∧
    (∀ c p, (c, p) ∈ (send ch msg (some clients)).writes
      → c ∈ clients ∧ p = parseMessage msg ch.jsonEncode) ∧
    (send ch msg none).writes = broadcast ch.connections (parseMessage msg ch.jsonEncode) := by
  refine ⟨rfl, rfl, ?_, rfl⟩
  intro c p hm
  have hw : (send ch msg (some clients)).writes
      = broadcast clients (parseMessage msg ch.jsonEncode) := rfl
  rw [hw] at hm
  exact mem_broadcast.mp hm

/-- C9: when the access-control collaborator handles the request with a 403
status, `addClient` reports `'cors failure'` to the callback and performs no
further action: no handshake write, no registry or count change, no replay,
no connect event. -/
theorem addClient_cors_rejected (ch : Channel) (req : Request) (res : Nat) :
    (addClient ch true 403 req res).outcome
      = AddClientOutcome.corsHandled (some "cors failure") ∧
    (addClient ch true 403 req res).channel = ch ∧
    (addClient ch true 403 req res).resWrites = [] ∧
    (addClient ch true 403 req res).connectEmitted = false :=
  ⟨rfl, rfl, rfl, rfl⟩

/-- C10: for a plain-string message both implementations' `parseMessage`
short-circuit to `parseTextData` and produce byte-identical output,
regardless of either serialisation flag. -/
theorem parseMessage_string_refinement (s : String) (f1 f2 : Bool) :
    parseMessageLib (JsMsg.str s) f1 = some (parseTextData s) ∧
    parseMessage (JsMsg.str s) f2 = parseTextData s :=
  ⟨rfl, rfl⟩
